import Mathlib

/-!
Verification of the replica-calculation core of the
jthomperoo/horizontal-pod-autoscaler repository, shallowly embedded in Lean.

Modelling conventions used throughout:
* Go `float64` ratio arithmetic is idealised as exact rational arithmetic (`ℚ`);
  `math.Ceil` composed with the `int32` conversion is modelled as the integer
  ceiling on `ℚ` (no claim in scope depends on binary rounding or overflow).
* Go `int32` / `int64` / `int` quantities are modelled as unbounded `Int`
  (counters that can only grow from zero use `Nat`).
* Go maps (`PodMetricsInfo`, `requests`) are modelled as association lists with
  Go map upsert semantics, and `sets.String` as a `List String` whose insert
  skips duplicates, exactly as `sets.String.Insert` does on a set.
* `time.Time` instants and `time.Duration` values are modelled as integers;
  the call to `time.Now()` inside `groupPods` is passed in as a parameter
  `now` (`t.After(u)` is `u < t`, `t.Before(u)` is `t < u`).
* Go interface fields (the sub-gatherers and sub-evaluators injected into the
  facades) are modelled as function-valued structure fields.
-/

/-- One entry of `metricsclient.PodMetricsInfo`: a pod sample with its value in
milli-units, its timestamp and its sample window. -/
structure PodSample where
  value : Int
  timestamp : Int
  window : Int
deriving DecidableEq

/-- `metricsclient.PodMetricsInfo`, a map from pod name to sample, as an
association list. -/
abbrev PodSampleMap := List (String × PodSample)

/-- Go map insertion `metrics[podName] = sample`: upsert of a key. -/
def insertSample (m : PodSampleMap) (k : String) (s : PodSample) : PodSampleMap :=
  (k, s) :: m.filter (fun q => q.1 ≠ k)

/-- Go map insertion of `metricsclient.PodMetric{Value: v}`: the timestamp and
window fields are zero-valued. -/
def fillSamples (m : PodSampleMap) (pods : List String) (v : Int) : PodSampleMap :=
  pods.foldl (fun acc p => insertSample acc p ⟨v, 0, 0⟩) m

/-- Sum of the sample values of a map. -/
def sampleSum (m : PodSampleMap) : Int :=
  (m.map (fun q => q.2.value)).sum

/-- Modelled from the spec: the vendored Kubernetes helper
`GetMetricUtilizationRatio` is not part of this repository (the repository
only calls it). The spec defines the plain usage ratio as
`u = (Σ samples) / (|samples| · T)`. -/
def plainUsage (m : PodSampleMap) (target : Int) : ℚ :=
  (sampleSum m : ℚ) / ((m.length : ℚ) * (target : ℚ))

/-- The synthetic samples inserted for missing pods by the correction step of
`getPlainMetricReplicaCount` (src/unnamed/part_002, lines 287-299): value `T`
when the base usage ratio is below one, value `0` otherwise. -/
def plainAugmentMissing (m : PodSampleMap) (target : Int)
    (missingPods : List String) : PodSampleMap :=
  if 0 < missingPods.length then
    if plainUsage m target < 1 then fillSamples m missingPods target
    else fillSamples m missingPods 0
  else m

/-- The full augmented sample map built by the correction step of
`getPlainMetricReplicaCount` (src/unnamed/part_002, lines 287-306): missing
pods are filled first, then ignored pods are zero-filled when
`rebalanceIgnored` holds. -/
def plainAugment (m : PodSampleMap) (target : Int)
    (missingPods ignoredPods : List String) : PodSampleMap :=
  if 0 < ignoredPods.length ∧ 1 < plainUsage m target then
    fillSamples (plainAugmentMissing m target missingPods) ignoredPods 0
  else plainAugmentMissing m target missingPods

/-- `getPlainMetricReplicaCount` (src/unnamed/part_002, lines 266-320),
returning both the replica count and the final state of the sample map that Go
mutates in place (the base case returns the map untouched). -/
def getPlainMetricReplicaCountFull (tolerance : ℚ) (metrics : PodSampleMap)
    (currentReplicas targetUtilization readyPodCount : Int)
    (missingPods ignoredPods : List String) : Int × PodSampleMap :=
  if ¬ (0 < ignoredPods.length ∧ 1 < plainUsage metrics targetUtilization) ∧
      missingPods.length = 0 then
    if |1 - plainUsage metrics targetUtilization| ≤ tolerance then
      (currentReplicas, metrics)
    else
      (⌈plainUsage metrics targetUtilization * (readyPodCount : ℚ)⌉, metrics)
  else
    if |1 - plainUsage (plainAugment metrics targetUtilization missingPods ignoredPods)
          targetUtilization| ≤ tolerance ∨
        (plainUsage metrics targetUtilization < 1 ∧
          1 < plainUsage (plainAugment metrics targetUtilization missingPods ignoredPods)
            targetUtilization) ∨
        (1 < plainUsage metrics targetUtilization ∧
          plainUsage (plainAugment metrics targetUtilization missingPods ignoredPods)
            targetUtilization < 1) then
      (currentReplicas, plainAugment metrics targetUtilization missingPods ignoredPods)
    else
      (⌈plainUsage (plainAugment metrics targetUtilization missingPods ignoredPods)
          targetUtilization *
          ((plainAugment metrics targetUtilization missingPods ignoredPods).length : ℚ)⌉,
        plainAugment metrics targetUtilization missingPods ignoredPods)

/-- The replica count returned by `getPlainMetricReplicaCount`
(src/unnamed/part_002, lines 266-320). -/
def getPlainMetricReplicaCount (tolerance : ℚ) (metrics : PodSampleMap)
    (currentReplicas targetUtilization readyPodCount : Int)
    (missingPods ignoredPods : List String) : Int :=
  (getPlainMetricReplicaCountFull tolerance metrics currentReplicas targetUtilization
    readyPodCount missingPods ignoredPods).1

/-- `getUsageRatioReplicaCount` (src/unnamed/part_002, lines 250-264). -/
def getUsageRatioReplicaCount (tolerance : ℚ) (currentReplicas : Int)
    (usage : ℚ) (readyPodCount : Int) : Int :=
  if currentReplicas ≠ 0 then
    if |1 - usage| ≤ tolerance then currentReplicas
    else ⌈usage * (readyPodCount : ℚ)⌉
  else ⌈usage⌉

/-- The samples having a matching request entry. -/
def matchedSamples (metrics requests : PodSampleMap) : PodSampleMap :=
  metrics.filter (fun q => ((requests.lookup q.1).isSome : Bool))

/-- The request total over the samples with a matching request entry. -/
def matchedRequestSum (metrics requests : PodSampleMap) : Int :=
  ((matchedSamples metrics requests).map
    (fun q => (((requests.lookup q.1).map (fun s => s.value)).getD 0))).sum

/-- Modelled from the spec: the vendored Kubernetes helper
`GetResourceUtilizationRatio` is not part of this repository (the repository
only calls it). The spec defines the utilization-mode ratio as
`u = (Σ samples / Σ requests) / targetUtilizationFraction` where the target
utilization is a percentage, and says the computation fails when no sample in
the map matches any known pod in the requests map; the sums range over the
samples having a matching request entry. -/
def resourceUsage (metrics requests : PodSampleMap) (targetUtilization : Int) :
    Except String ℚ :=
  if (matchedSamples metrics requests).length = 0 then
    .error "no metrics returned matched known pods"
  else
    .ok (((sampleSum (matchedSamples metrics requests) : ℚ) /
        (matchedRequestSum metrics requests : ℚ)) /
      ((targetUtilization : ℚ) / 100))

/-- The synthetic samples inserted for missing pods by the correction step of
the utilization-mode resource evaluation (src/evaluate/external/external.go,
resource evaluator, lines 182-194; identical in src/unnamed/part_002, lines
172-184): on scale-down missing pods are filled with their request (a Go map
read defaulting to zero), on scale-up with zero, and nothing is filled at a
ratio of exactly one. -/
def utilAugmentMissing (metrics requests : PodSampleMap) (u : ℚ)
    (missingPods : List String) : PodSampleMap :=
  if 0 < missingPods.length then
    if u < 1 then
      missingPods.foldl
        (fun acc p =>
          insertSample acc p ⟨((requests.lookup p).map (fun s => s.value)).getD 0, 0, 0⟩)
        metrics
    else if 1 < u then fillSamples metrics missingPods 0
    else metrics
  else metrics

/-- The full augmented sample map built by the correction step of the
utilization-mode resource evaluation (src/evaluate/external/external.go,
resource evaluator, lines 182-201; identical in src/unnamed/part_002, lines
172-191): missing pods are filled first, then ignored pods are zero-filled
when `rebalanceIgnored` holds. -/
def utilAugment (metrics requests : PodSampleMap) (u : ℚ)
    (missingPods ignoredPods : List String) : PodSampleMap :=
  if 0 < ignoredPods.length ∧ 1 < u then
    fillSamples (utilAugmentMissing metrics requests u missingPods) ignoredPods 0
  else utilAugmentMissing metrics requests u missingPods

/-- The `AverageUtilization` branch of the resource evaluator
(src/evaluate/external/external.go, resource evaluator `GetEvaluation`, lines
148-224; identical logic in src/unnamed/part_002, `getResourceEvaluation`,
lines 144-213), with the ratio computation modelled from the spec (see
`resourceUsage`). -/
def resourceUtilEvaluation (tolerance : ℚ) (metrics requests : PodSampleMap)
    (targetUtilization currentReplicas readyPodCount : Int)
    (missingPods ignoredPods : List String) : Except String Int :=
  (resourceUsage metrics requests targetUtilization).bind (fun u =>
    if ¬ (0 < ignoredPods.length ∧ 1 < u) ∧ missingPods.length = 0 then
      if |1 - u| ≤ tolerance then .ok currentReplicas
      else .ok ⌈u * (readyPodCount : ℚ)⌉
    else
      (resourceUsage (utilAugment metrics requests u missingPods ignoredPods) requests
          targetUtilization).bind (fun u1 =>
        if |1 - u1| ≤ tolerance ∨ (u < 1 ∧ 1 < u1) ∨ (1 < u ∧ u1 < 1) then
          .ok currentReplicas
        else
          .ok ⌈u1 * ((utilAugment metrics requests u missingPods ignoredPods).length : ℚ)⌉))

/-- Pod phase (`v1.PodPhase`). -/
inductive PodPhase
  | pending
  | running
  | succeeded
  | failed
deriving DecidableEq

/-- Pod condition status (`v1.ConditionStatus`). -/
inductive ConditionStatus
  | conditionTrue
  | conditionFalse
  | conditionUnknown
deriving DecidableEq

/-- One entry of `pod.Status.Conditions`. -/
structure PodCondition where
  conditionType : String
  status : ConditionStatus
  lastTransitionTime : Int
deriving DecidableEq

/-- The fields of `v1.Pod` read by `groupPods`: name, deletion timestamp,
phase, start time and status conditions. -/
structure Pod where
  name : String
  deletionTimestamp : Option Int
  phase : PodPhase
  startTime : Option Int
  conditions : List PodCondition
deriving DecidableEq

/-- `podutil.GetPodCondition`: find the condition of the given type. -/
def getPodCondition (conditions : List PodCondition) (condType : String) :
    Option PodCondition :=
  conditions.find? (fun c => c.conditionType == condType)

/-- The CPU timing gate of `groupPods` (src/unnamed/part_001, lines 422-435):
whether a sampled pod is ignored when the measured resource is CPU. -/
def ignorePodCPU (now cpuInitializationPeriod delayOfInitialReadinessStatus : Int)
    (pod : Pod) (sample : PodSample) : Bool :=
  match getPodCondition pod.conditions "Ready", pod.startTime with
  | none, _ => true
  | some _, none => true
  | some condition, some startTime =>
    if now < startTime + cpuInitializationPeriod then
      condition.status == ConditionStatus.conditionFalse ||
        decide (sample.timestamp < condition.lastTransitionTime + sample.window)
    else
      condition.status == ConditionStatus.conditionFalse &&
        decide (condition.lastTransitionTime < startTime + delayOfInitialReadinessStatus)

/-- `sets.String.Insert` on a set represented by a duplicate-free list. -/
def setInsert (s : List String) (x : String) : List String :=
  if x ∈ s then s else s ++ [x]

/-- Whether a pod is skipped by `groupPods` (deletion in progress, or phase
Failed; src/unnamed/part_001, lines 413-415). -/
def podSkipped (pod : Pod) : Bool :=
  pod.deletionTimestamp.isSome || pod.phase == PodPhase.failed

/-- The loop body of `groupPods` (src/unnamed/part_001, lines 412-442),
acting on the accumulator `(readyPodCount, ignoredPods, missingPods)`. -/
def groupPodsStep (now : Int) (metrics : PodSampleMap) (resourceName : String)
    (cpuInitializationPeriod delayOfInitialReadinessStatus : Int)
    (acc : Nat × List String × List String) (pod : Pod) :
    Nat × List String × List String :=
  if podSkipped pod then acc
  else
    match metrics.lookup pod.name with
    | none => (acc.1, acc.2.1, setInsert acc.2.2 pod.name)
    | some sample =>
      if resourceName == "cpu" then
        if ignorePodCPU now cpuInitializationPeriod delayOfInitialReadinessStatus pod
            sample then
          (acc.1, setInsert acc.2.1 pod.name, acc.2.2)
        else (acc.1 + 1, acc.2.1, acc.2.2)
      else (acc.1 + 1, acc.2.1, acc.2.2)

/-- `groupPods` (src/unnamed/part_001, lines 409-444): partition a pod list
into a ready count, an ignored-pod set and a missing-pod set. -/
def groupPods (now : Int) (pods : List Pod) (metrics : PodSampleMap)
    (resourceName : String)
    (cpuInitializationPeriod delayOfInitialReadinessStatus : Int) :
    Nat × List String × List String :=
  pods.foldl
    (groupPodsStep now metrics resourceName cpuInitializationPeriod
      delayOfInitialReadinessStatus)
    (0, [], [])

/-- Specification predicate: a non-skipped pod with no sample in the map
(added to the missing set by `groupPods`). -/
def podMissing (metrics : PodSampleMap) (pod : Pod) : Bool :=
  !podSkipped pod && (metrics.lookup pod.name).isNone

/-- Specification predicate: a non-skipped, sampled pod whose sample is
discarded by the CPU timing gate (added to the ignored set by `groupPods`). -/
def podIgnored (now : Int) (metrics : PodSampleMap) (resourceName : String)
    (cpuInitializationPeriod delayOfInitialReadinessStatus : Int) (pod : Pod) : Bool :=
  !podSkipped pod &&
    match metrics.lookup pod.name with
    | none => false
    | some sample =>
      resourceName == "cpu" &&
        ignorePodCPU now cpuInitializationPeriod delayOfInitialReadinessStatus pod sample

/-- Specification predicate: a non-skipped, sampled pod counted as ready by
`groupPods`. -/
def podCountedReady (now : Int) (metrics : PodSampleMap) (resourceName : String)
    (cpuInitializationPeriod delayOfInitialReadinessStatus : Int) (pod : Pod) : Bool :=
  !podSkipped pod &&
    match metrics.lookup pod.name with
    | none => false
    | some sample =>
      !(resourceName == "cpu") ||
        !(ignorePodCPU now cpuInitializationPeriod delayOfInitialReadinessStatus pod sample)

/-- `autoscaling.MetricSourceType`, with unknown source types kept as raw
strings (the Go type is a string). -/
inductive MetricSourceType
  | object
  | pods
  | resource
  | external
  | other (s : String)
deriving DecidableEq

/-- `autoscaling.MetricTargetType`. -/
inductive MetricTargetType
  | utilization
  | value
  | averageValue
  | other (s : String)
deriving DecidableEq

/-- `autoscaling.MetricTarget`: the target shape, with all scalar quantities
already converted to their milli-values. -/
structure MetricTarget where
  type : MetricTargetType
  value : Option Int
  averageValue : Option Int
  averageUtilization : Option Int
deriving DecidableEq

/-- The fields of `autoscaling.MetricSpec` read by the evaluators: the source
type and the target of each optional per-source block (metric names, selectors
and object references do not influence evaluation and are omitted). -/
structure MetricSpec where
  type : MetricSourceType
  objectTarget : Option MetricTarget := none
  podsTarget : Option MetricTarget := none
  resourceTarget : Option MetricTarget := none
  externalTarget : Option MetricTarget := none
deriving DecidableEq

/-- `resource.Metric` / `ResourceMetric` (src/metric/types.go): the gathered
measurement for a Resource source (the total-pod count and timestamp are not
read by any evaluator and are omitted). -/
structure ResourceMetricData where
  podMetricsInfo : PodSampleMap
  requests : PodSampleMap
  readyPodCount : Int
  ignoredPods : List String
  missingPods : List String
deriving DecidableEq

/-- `pods.Metric` / `PodsMetric` (src/metric/types.go). -/
structure PodsMetricData where
  podMetricsInfo : PodSampleMap
  readyPodCount : Int
  ignoredPods : List String
  missingPods : List String
deriving DecidableEq

/-- `object.Metric` / `ObjectMetric` (src/metric/types.go). -/
structure ObjectMetricData where
  utilization : Int
  readyPodCount : Option Int
deriving DecidableEq

/-- `external.Metric` / `ExternalMetric` (src/metric/types.go). -/
structure ExternalMetricData where
  utilization : Int
  readyPodCount : Option Int
deriving DecidableEq

/-- `metric.Metric` / `metric.CombinedMetric`: one gathered metric, carrying
the spec it was gathered with, the replica count at gathering time, and the
per-source payload. -/
structure Metric where
  currentReplicas : Int
  spec : MetricSpec
  resource : Option ResourceMetricData := none
  pods : Option PodsMetricData := none
  object : Option ObjectMetricData := none
  external : Option ExternalMetricData := none
deriving DecidableEq

/-- Decidable equality of `Except` results, used to evaluate closed
instantiations. -/
instance {e a : Type} [DecidableEq e] [DecidableEq a] : DecidableEq (Except e a) :=
  fun x y =>
    match x, y with
    | .ok v, .ok w =>
      if h : v = w then isTrue (by rw [h]) else isFalse (by simp [h])
    | .error v, .error w =>
      if h : v = w then isTrue (by rw [h]) else isFalse (by simp [h])
    | .ok _, .error _ => isFalse (by simp)
    | .error _, .ok _ => isFalse (by simp)

/-- The evaluator facade `evaluate.Evaluate` (src/metric/types.go, lines
133-139): its sub-evaluators are injected interface values, modelled as
functions from current replicas and gathered metric to a result (the pods
sub-evaluator returns no error). -/
structure EvaluateFacade where
  external : Int → Metric → Except String Int
  object : Int → Metric → Except String Int
  pods : Int → Metric → Int
  resource : Int → Metric → Except String Int

/-- The per-metric dispatch `Evaluate.getEvaluation` (src/metric/types.go,
lines 197-210). -/
def getEvaluationOne (e : EvaluateFacade) (m : Metric) : Except String Int :=
  match m.spec.type with
  | .object => e.object m.currentReplicas m
  | .pods => .ok (e.pods m.currentReplicas m)
  | .resource => e.resource m.currentReplicas m
  | .external => e.external m.currentReplicas m
  | .other s => .error ("unknown metric source type \"" ++ s ++ "\"")

/-- Whether an `Except` result is a success. -/
def exceptIsOk {ε α : Type} : Except ε α → Bool
  | .ok _ => true
  | .error _ => false

/-- The loop of `Evaluate.GetEvaluation` (src/metric/types.go, lines 171-188):
the accumulator carries the best evaluation so far, the first captured error
and the invalid-evaluation count. -/
def evalLoop (e : EvaluateFacade) :
    List Metric → Option Int → Option String → Nat → Option Int × Option String × Nat
  | [], best, firstErr, count => (best, firstErr, count)
  | m :: ms, best, firstErr, count =>
    match getEvaluationOne e m with
    | .error err =>
      evalLoop e ms best (if count ≤ 0 then some err else firstErr) (count + 1)
    | .ok v =>
      match best with
      | none => evalLoop e ms (some v) firstErr count
      | some cur => evalLoop e ms (some (if cur < v then v else cur)) firstErr count

/-- The evaluator facade `Evaluate.GetEvaluation` (src/metric/types.go, lines
166-195): run the loop, fail when every evaluation was invalid, otherwise
return the best evaluation (a `*Evaluation` pointer, hence `Option`). -/
def facadeGetEvaluation (e : EvaluateFacade) (ms : List Metric) :
    Except String (Option Int) :=
  if ms.length ≤ (evalLoop e ms none none 0).2.2 then
    .error ("invalid evaluations (" ++ toString (evalLoop e ms none none 0).2.2 ++
      " invalid out of " ++ toString ms.length ++ "), first error is: " ++
      ((evalLoop e ms none none 0).2.1.getD "<nil>"))
  else .ok (evalLoop e ms none none 0).1

/-- The successful per-metric evaluation values of a metric list, in input
order. -/
def successValues (e : EvaluateFacade) (ms : List Metric) : List Int :=
  ms.filterMap (fun m => (getEvaluationOne e m).toOption)

/-- The first per-metric evaluation error of a metric list, in input order. -/
def firstError (e : EvaluateFacade) : List Metric → Option String
  | [] => none
  | m :: ms =>
    match getEvaluationOne e m with
    | .error err => some err
    | .ok _ => firstError e ms

/-- The running-maximum accumulator of the facade loop. -/
def accMax : Option Int → List Int → Option Int
  | best, [] => best
  | none, v :: vs => accMax (some v) vs
  | some cur, v :: vs => accMax (some (if cur < v then v else cur)) vs

/-- The loop of `Gather.GetMetrics` (src/unnamed/part_000, lines 123-133):
the accumulator carries the gathered metrics, the first captured error and the
invalid-metric count. The per-spec gatherer `getMetric` is an injected
function (in Go it dispatches to injected sub-gatherer interfaces performing
network calls). -/
def gatherLoop (getMetricOne : Int → MetricSpec → Except String Metric)
    (currentReplicas : Int) :
    List MetricSpec → List Metric → Option String → Nat →
      List Metric × Option String × Nat
  | [], acc, firstErr, count => (acc, firstErr, count)
  | s :: ss, acc, firstErr, count =>
    match getMetricOne currentReplicas s with
    | .error err =>
      gatherLoop getMetricOne currentReplicas ss acc
        (if count ≤ 0 then some err else firstErr) (count + 1)
    | .ok m => gatherLoop getMetricOne currentReplicas ss (acc ++ [m]) firstErr count

/-- The gatherer facade `Gather.GetMetrics` (src/unnamed/part_000, lines
111-141): resolve the current replica count of the target resource (a failure
aborts immediately; a nil replica pointer counts as zero), run the loop, fail
when every spec was invalid, otherwise return the gathered metrics. -/
def facadeGetMetrics (getMetricOne : Int → MetricSpec → Except String Metric)
    (getReplicaCount : Except String (Option Int)) (specs : List MetricSpec) :
    Except String (List Metric) :=
  match getReplicaCount with
  | .error e => .error e
  | .ok r =>
    if specs.length ≤ (gatherLoop getMetricOne (r.getD 0) specs [] none 0).2.2 then
      .error ("invalid metrics (" ++
        toString (gatherLoop getMetricOne (r.getD 0) specs [] none 0).2.2 ++
        " invalid out of " ++ toString specs.length ++ "), first error is: " ++
        ((gatherLoop getMetricOne (r.getD 0) specs [] none 0).2.1.getD "<nil>"))
    else .ok (gatherLoop getMetricOne (r.getD 0) specs [] none 0).1

/-- The resource evaluator of src/unnamed/part_002 (`getResourceEvaluation`,
lines 129-216). Its `AverageValue` branch reads the target from
`Spec.Object.Target.AverageValue`. Nil-pointer dereferences, on which Go
panics, are modelled as errors prefixed with `panic:` (no claim is evaluated
at such an input). -/
def getResourceEvaluationOld (tolerance : ℚ) (currentReplicas : Int) (m : Metric) :
    Except String Int :=
  match m.spec.resourceTarget with
  | none => .error "panic: nil pointer dereference on Spec.Resource"
  | some rt =>
    match rt.averageValue with
    | some _ =>
      match m.spec.objectTarget with
      | none => .error "panic: nil pointer dereference on Spec.Object"
      | some ot =>
        match ot.averageValue with
        | none => .error "panic: nil pointer dereference on Spec.Object.Target.AverageValue"
        | some objectAverageValue =>
          match m.resource with
          | none => .error "panic: nil pointer dereference on Resource"
          | some rd =>
            .ok (getPlainMetricReplicaCount tolerance rd.podMetricsInfo currentReplicas
              objectAverageValue rd.readyPodCount rd.missingPods rd.ignoredPods)
    | none =>
      match rt.averageUtilization with
      | some targetUtilization =>
        match m.resource with
        | none => .error "panic: nil pointer dereference on Resource"
        | some rd =>
          resourceUtilEvaluation tolerance rd.podMetricsInfo rd.requests
            targetUtilization currentReplicas rd.readyPodCount rd.missingPods
            rd.ignoredPods
      | none =>
        .error "invalid resource metric source: neither a utilization target nor a value target was set"

/-- The resource evaluator of src/evaluate/external/external.go
(`resource.Evaluate.GetEvaluation`, lines 133-227). Its `AverageValue` branch
reads the target from `Spec.Resource.Target.AverageValue`. -/
def resourceGetEvaluation (tolerance : ℚ) (currentReplicas : Int) (m : Metric) :
    Except String Int :=
  match m.spec.resourceTarget with
  | none => .error "panic: nil pointer dereference on Spec.Resource"
  | some rt =>
    match rt.averageValue with
    | some resourceAverageValue =>
      match m.resource with
      | none => .error "panic: nil pointer dereference on Resource"
      | some rd =>
        .ok (getPlainMetricReplicaCount tolerance rd.podMetricsInfo currentReplicas
          resourceAverageValue rd.readyPodCount rd.missingPods rd.ignoredPods)
    | none =>
      match rt.averageUtilization with
      | some targetUtilization =>
        match m.resource with
        | none => .error "panic: nil pointer dereference on Resource"
        | some rd =>
          resourceUtilEvaluation tolerance rd.podMetricsInfo rd.requests
            targetUtilization currentReplicas rd.readyPodCount rd.missingPods
            rd.ignoredPods
      | none =>
        .error "invalid resource metric source: neither a utilization target nor a value target was set"

/-- Concrete gathered metric exhibiting the target-field divergence of the two
resource evaluators: the Resource target has AverageValue 50m, while an Object
target with AverageValue 100m is also populated on the spec. One ready pod
samples 100m. -/
def divergenceMetric : Metric :=
  { currentReplicas := 1
    spec :=
      { type := .resource
        objectTarget := some
          { type := .averageValue, value := none, averageValue := some 100,
            averageUtilization := none }
        resourceTarget := some
          { type := .averageValue, value := none, averageValue := some 50,
            averageUtilization := none } }
    resource := some
      { podMetricsInfo := [("pod-1", ⟨100, 0, 0⟩)]
        requests := []
        readyPodCount := 1
        ignoredPods := []
        missingPods := [] } }

/-- Concrete facade instance for closed instantiations: the pods sub-evaluator
returns the current replica count, every other sub-evaluator fails. -/
def sampleFacade : EvaluateFacade where
  external := fun _ _ => .error "fail to evaluate"
  object := fun _ _ => .error "fail to evaluate"
  pods := fun c _ => c
  resource := fun _ _ => .error "fail to evaluate"

/-- A gathered pods metric with current replicas 3. -/
def samplePodsMetric3 : Metric := { currentReplicas := 3, spec := { type := .pods } }

/-- A gathered pods metric with current replicas 9. -/
def samplePodsMetric9 : Metric := { currentReplicas := 9, spec := { type := .pods } }

/-- A gathered resource metric (evaluated by the failing sub-evaluator of
`sampleFacade`). -/
def sampleResourceMetric : Metric := { currentReplicas := 2, spec := { type := .resource } }

/-- A gathered metric with an unknown source type. -/
def sampleUnknownMetric : Metric := { currentReplicas := 2, spec := { type := .other "invalid" } }

/-- A Ready condition that transitioned at time 0 with status True. -/
def sampleReadyCond : PodCondition :=
  { conditionType := "Ready", status := .conditionTrue, lastTransitionTime := 0 }

/-- A running, ready, sampled pod. -/
def samplePodA : Pod :=
  { name := "pod-a", deletionTimestamp := none, phase := .running,
    startTime := some 0, conditions := [sampleReadyCond] }

/-- A running pod with no sample in the map. -/
def samplePodB : Pod :=
  { name := "pod-b", deletionTimestamp := none, phase := .running,
    startTime := some 0, conditions := [sampleReadyCond] }

/-- A running, sampled pod with no Ready condition. -/
def samplePodC : Pod :=
  { name := "pod-c", deletionTimestamp := none, phase := .running,
    startTime := some 0, conditions := [] }

/-- A failed pod. -/
def samplePodD : Pod :=
  { name := "pod-d", deletionTimestamp := none, phase := .failed,
    startTime := some 0, conditions := [sampleReadyCond] }

/-- A sample map covering `samplePodA` and `samplePodC`. -/
def sampleClassifierMap : PodSampleMap :=
  [("pod-a", ⟨100, 50, 10⟩), ("pod-c", ⟨100, 50, 10⟩)]

/-- Filtering out the entries of one key leaves the lookup of any other key
unchanged. -/
theorem lookup_filter_ne (k p : String) (h : p ≠ k) (as : PodSampleMap) :
    (as.filter (fun q => q.1 ≠ k)).lookup p = as.lookup p := by
  induction as with
  | nil => rfl
  | cons a as ih =>
    rw [List.filter_cons]
    by_cases hak : a.1 = k
    · rw [if_neg (by simp [hak])]
      rw [ih]
      cases a with
      | mk a1 a2 =>
        simp only at hak
        simp [List.lookup, show (p == a1) = false by simp [hak, h]]
    · rw [if_pos (by simp [hak])]
      cases a with
      | mk a1 a2 =>
        by_cases hpa : p = a1
        · simp [List.lookup, hpa]
        · simp only [List.lookup, show (p == a1) = false by simp [hpa]]
          exact ih

/-- Looking a key up after a Go map insertion: the inserted key returns the
inserted sample, any other key is unaffected. -/
theorem lookup_insertSample (m : PodSampleMap) (k p : String) (s : PodSample) :
    (insertSample m k s).lookup p = if p = k then some s else m.lookup p := by
  unfold insertSample
  by_cases h : p = k
  · simp [List.lookup, h]
  · simp only [List.lookup, show (p == k) = false by simp [h], if_neg h]
    exact lookup_filter_ne k p h m

/-- Looking a key up after the zero-or-target fill of a pod list: filled pods
return the filled sample, any other key is unaffected. -/
theorem lookup_fillSamples (pods : List String) (m : PodSampleMap) (v : Int)
    (p : String) :
    (fillSamples m pods v).lookup p =
      if p ∈ pods then some ⟨v, 0, 0⟩ else m.lookup p := by
  induction pods generalizing m with
  | nil => simp [fillSamples]
  | cons q qs ih =>
    show (fillSamples (insertSample m q ⟨v, 0, 0⟩) qs v).lookup p = _
    rw [ih]
    by_cases hq : p ∈ qs
    · simp [hq]
    · rw [if_neg hq, lookup_insertSample]
      by_cases hpq : p = q
      · simp [hpq]
      · simp [hpq, hq]

/-- C9: the usage-ratio-replica helper returns the ceiling of the usage ratio
when the current replica count is zero (with no tolerance check applied), and
otherwise returns the current replicas inside the tolerance band and the
ceiling of the usage ratio times the ready pod count outside of it. -/
theorem usage_ratio_replica_count_cases (tolerance : ℚ) (u : ℚ) (C P : Int) :
    getUsageRatioReplicaCount tolerance 0 u P = ⌈u⌉ ∧
    (C ≠ 0 →
      getUsageRatioReplicaCount tolerance C u P =
        if |1 - u| ≤ tolerance then C else ⌈u * (P : ℚ)⌉) := by
  constructor
  · simp [getUsageRatioReplicaCount]
  · intro hC
    unfold getUsageRatioReplicaCount
    rw [if_pos hC]

/-- Witness for C9 at tolerance 1/10, usage ratio 5/2, ready pod count 3 and
current replicas 0 and 2. -/
theorem usage_ratio_replica_count_cases_witness :
    getUsageRatioReplicaCount (1/10) 0 (5/2) 3 = 3 ∧
    getUsageRatioReplicaCount (1/10) 2 (5/2) 3 = 8 := by
  constructor
  · rw [(usage_ratio_replica_count_cases (1/10) (5/2) 2 3).1]
    norm_num [Int.ceil_eq_iff]
  · rw [(usage_ratio_replica_count_cases (1/10) (5/2) 2 3).2 (by decide)]
    rw [if_neg (by norm_num [abs_le])]
    push_cast
    norm_num [Int.ceil_eq_iff]

/-- In the no-correction base case of the plain-metric calculation (no missing
pod, and no ignored pod or a base usage ratio of at most one), the result is
the tolerance-banded ceiling and the sample map is untouched. -/
theorem plain_base_eval (tolerance : ℚ) (metrics : PodSampleMap)
    (C T R : Int) (ignoredPods : List String)
    (h : ignoredPods = [] ∨ plainUsage metrics T ≤ 1) :
    getPlainMetricReplicaCountFull tolerance metrics C T R [] ignoredPods =
      (if |1 - plainUsage metrics T| ≤ tolerance then C
       else ⌈plainUsage metrics T * (R : ℚ)⌉, metrics) := by
  unfold getPlainMetricReplicaCountFull
  rw [if_pos]
  · split <;> rfl
  · refine ⟨?_, rfl⟩
    rintro ⟨hlen, hu⟩
    rcases h with h | h
    · simp [h] at hlen
    · exact absurd hu (not_lt.mpr h)

/-- C2: when no pod is missing and either no pod is ignored or the base usage
ratio is at most one, the plain-metric calculation performs no correction: the
sample map is returned untouched (no synthetic sample is inserted) and the
result is the current replicas inside the tolerance band, and the ceiling of
the usage ratio times the ready pod count outside of it. -/
theorem plain_no_correction_base_case (tolerance : ℚ) (metrics : PodSampleMap)
    (C T R : Int) (ignoredPods : List String)
    (h : ignoredPods = [] ∨ plainUsage metrics T ≤ 1) :
    getPlainMetricReplicaCountFull tolerance metrics C T R [] ignoredPods =
      (if |1 - plainUsage metrics T| ≤ tolerance then C
       else ⌈plainUsage metrics T * (R : ℚ)⌉, metrics) :=
  plain_base_eval tolerance metrics C T R ignoredPods h

/-- Witness for C2: two pods sampling 20m against a 50m target (usage ratio
2/5, outside the 1/10 tolerance band) yield ceil(2/5 * 2) = 1 replica, and the
sample map is unchanged. -/
theorem plain_no_correction_base_case_witness :
    getPlainMetricReplicaCountFull (1/10)
        [("pod-1", ⟨20, 0, 0⟩), ("pod-2", ⟨20, 0, 0⟩)] 2 50 2 [] [] =
      (1, [("pod-1", ⟨20, 0, 0⟩), ("pod-2", ⟨20, 0, 0⟩)]) := by
  rw [plain_no_correction_base_case (1/10)
    [("pod-1", ⟨20, 0, 0⟩), ("pod-2", ⟨20, 0, 0⟩)] 2 50 2 [] (Or.inl rfl)]
  have hu : plainUsage [("pod-1", ⟨20, 0, 0⟩), ("pod-2", ⟨20, 0, 0⟩)] 50 = 2/5 := by
    simp [plainUsage, sampleSum]
    norm_num
  rw [hu, if_neg (by norm_num [abs_le])]
  simp only [Prod.mk.injEq]
  refine ⟨?_, trivial⟩
  push_cast
  norm_num [Int.ceil_eq_iff]

/-- In a correction run, the final sample map of the plain-metric calculation
is the augmented map. -/
theorem plain_full_snd_correction (tolerance : ℚ) (metrics : PodSampleMap)
    (C T R : Int) (missingPods ignoredPods : List String)
    (hrun : ¬ (¬ (0 < ignoredPods.length ∧ 1 < plainUsage metrics T) ∧
      missingPods.length = 0)) :
    (getPlainMetricReplicaCountFull tolerance metrics C T R missingPods ignoredPods).2 =
      plainAugment metrics T missingPods ignoredPods := by
  unfold getPlainMetricReplicaCountFull
  rw [if_neg hrun]
  split <;> rfl

/-- C1: in every correction run of the plain-metric calculation, and of the
utilization-mode resource evaluation, a direction flip (the deviation of the
base usage ratio from one and the deviation of the recomputed ratio from one
have opposite signs, per the glossary definition of a direction flip) makes
the calculation return the current replica count. -/
theorem direction_flip_guard_returns_current
    (tolP : ℚ) (metricsP : PodSampleMap) (CP TP RP : Int)
    (missingP ignoredP : List String)
    (tolU : ℚ) (metricsU requestsU : PodSampleMap) (TU CU RU : Int)
    (missingU ignoredU : List String) (u u1 : ℚ) :
    (¬ (¬ (0 < ignoredP.length ∧ 1 < plainUsage metricsP TP) ∧
        missingP.length = 0) →
      ((plainUsage metricsP TP < 1 ∧
          1 < plainUsage (plainAugment metricsP TP missingP ignoredP) TP) ∨
        (1 < plainUsage metricsP TP ∧
          plainUsage (plainAugment metricsP TP missingP ignoredP) TP < 1)) →
      getPlainMetricReplicaCount tolP metricsP CP TP RP missingP ignoredP = CP) ∧
    (resourceUsage metricsU requestsU TU = .ok u →
      ¬ (¬ (0 < ignoredU.length ∧ 1 < u) ∧ missingU.length = 0) →
      resourceUsage (utilAugment metricsU requestsU u missingU ignoredU) requestsU TU =
        .ok u1 →
      ((u < 1 ∧ 1 < u1) ∨ (1 < u ∧ u1 < 1)) →
      resourceUtilEvaluation tolU metricsU requestsU TU CU RU missingU ignoredU =
        .ok CU) := by
  constructor
  · intro hrun hflip
    unfold getPlainMetricReplicaCount getPlainMetricReplicaCountFull
    rw [if_neg hrun, if_pos (Or.inr hflip)]
  · intro hu hrun hu1 hflip
    unfold resourceUtilEvaluation
    rw [hu]
    simp only [Except.bind]
    rw [if_neg hrun, hu1]
    simp only [Except.bind]
    rw [if_pos (Or.inr hflip)]

/-- Witness for C1. Plain mode: one pod sampling 100m against a 40m target
(base ratio 5/2) with three ignored pods; the rebalance fill drives the
recomputed ratio to 5/8, flipping direction, so the current 5 replicas are
kept. Utilization mode: one pod at 100m of a 100m request against a 50 percent
target (base ratio 2) with one ignored pod of request 300m; the rebalance fill
drives the ratio to 1/2, flipping direction, so the current 4 replicas are
kept. -/
theorem direction_flip_guard_returns_current_witness :
    getPlainMetricReplicaCount (1/10) [("pod-1", ⟨100, 0, 0⟩)] 5 40 1 []
        ["i-1", "i-2", "i-3"] = 5 ∧
    resourceUtilEvaluation (1/10) [("pod-1", ⟨100, 0, 0⟩)]
        [("pod-1", ⟨100, 0, 0⟩), ("i-1", ⟨300, 0, 0⟩)] 50 4 1 [] ["i-1"] = .ok 4 := by
  have hu : plainUsage [("pod-1", ⟨100, 0, 0⟩)] 40 = 5/2 := by
    norm_num [plainUsage, sampleSum]
  have haug : plainAugment [("pod-1", ⟨100, 0, 0⟩)] 40 [] ["i-1", "i-2", "i-3"] =
      [("i-3", ⟨0, 0, 0⟩), ("i-2", ⟨0, 0, 0⟩), ("i-1", ⟨0, 0, 0⟩),
        ("pod-1", ⟨100, 0, 0⟩)] := by
    unfold plainAugment
    rw [if_pos ⟨by norm_num, by rw [hu]; norm_num⟩]
    rfl
  have hu1 : plainUsage [("i-3", ⟨0, 0, 0⟩), ("i-2", ⟨0, 0, 0⟩), ("i-1", ⟨0, 0, 0⟩),
      ("pod-1", ⟨100, 0, 0⟩)] 40 = 5/8 := by
    norm_num [plainUsage, sampleSum]
  have hru : resourceUsage [("pod-1", ⟨100, 0, 0⟩)]
      [("pod-1", ⟨100, 0, 0⟩), ("i-1", ⟨300, 0, 0⟩)] 50 = .ok 2 := by
    unfold resourceUsage
    rw [if_neg (by decide),
      show sampleSum (matchedSamples [("pod-1", ⟨100, 0, 0⟩)]
        [("pod-1", ⟨100, 0, 0⟩), ("i-1", ⟨300, 0, 0⟩)]) = 100 from rfl,
      show matchedRequestSum [("pod-1", ⟨100, 0, 0⟩)]
        [("pod-1", ⟨100, 0, 0⟩), ("i-1", ⟨300, 0, 0⟩)] = 100 from rfl]
    simp only [Except.ok.injEq]
    norm_num
  have hraug : utilAugment [("pod-1", ⟨100, 0, 0⟩)]
      [("pod-1", ⟨100, 0, 0⟩), ("i-1", ⟨300, 0, 0⟩)] 2 [] ["i-1"] =
      [("i-1", ⟨0, 0, 0⟩), ("pod-1", ⟨100, 0, 0⟩)] := by
    unfold utilAugment
    rw [if_pos ⟨by norm_num, by norm_num⟩]
    rfl
  have hru1 : resourceUsage [("i-1", ⟨0, 0, 0⟩), ("pod-1", ⟨100, 0, 0⟩)]
      [("pod-1", ⟨100, 0, 0⟩), ("i-1", ⟨300, 0, 0⟩)] 50 = .ok (1/2) := by
    unfold resourceUsage
    rw [if_neg (by decide),
      show sampleSum (matchedSamples [("i-1", ⟨0, 0, 0⟩), ("pod-1", ⟨100, 0, 0⟩)]
        [("pod-1", ⟨100, 0, 0⟩), ("i-1", ⟨300, 0, 0⟩)]) = 100 from rfl,
      show matchedRequestSum [("i-1", ⟨0, 0, 0⟩), ("pod-1", ⟨100, 0, 0⟩)]
        [("pod-1", ⟨100, 0, 0⟩), ("i-1", ⟨300, 0, 0⟩)] = 400 from rfl]
    simp only [Except.ok.injEq]
    norm_num
  constructor
  · exact (direction_flip_guard_returns_current (1/10) [("pod-1", ⟨100, 0, 0⟩)] 5 40 1
      [] ["i-1", "i-2", "i-3"] (1/10) [("pod-1", ⟨100, 0, 0⟩)]
      [("pod-1", ⟨100, 0, 0⟩), ("i-1", ⟨300, 0, 0⟩)] 50 4 1 [] ["i-1"] 2 (1/2)).1
      (fun h => absurd ⟨by norm_num, by rw [hu]; norm_num⟩ h.1)
      (Or.inr ⟨by rw [hu]; norm_num, by rw [haug, hu1]; norm_num⟩)
  · exact (direction_flip_guard_returns_current (1/10) [("pod-1", ⟨100, 0, 0⟩)] 5 40 1
      [] ["i-1", "i-2", "i-3"] (1/10) [("pod-1", ⟨100, 0, 0⟩)]
      [("pod-1", ⟨100, 0, 0⟩), ("i-1", ⟨300, 0, 0⟩)] 50 4 1 [] ["i-1"] 2 (1/2)).2
      hru
      (fun h => absurd ⟨by norm_num, by norm_num⟩ h.1)
      (by rw [hraug]; exact hru1)
      (Or.inr ⟨by norm_num, by norm_num⟩)

/-- C3 counterexample: at a base usage ratio of exactly one with a missing
pod, the plain-metric correction step does insert a synthetic sample, of value
zero, for the missing pod (the code fills the scale-up value on the
non-strict branch `u ≥ 1`, not only on `u > 1`). -/
theorem plain_fill_at_unit_usage_counterexample :
    plainUsage [("pod-1", ⟨50, 0, 0⟩)] 50 = 1 ∧
    ((getPlainMetricReplicaCountFull (1/10) [("pod-1", ⟨50, 0, 0⟩)] 7 50 1
        ["m-1"] []).2).lookup "m-1" = some ⟨0, 0, 0⟩ := by
  have hu : plainUsage [("pod-1", ⟨50, 0, 0⟩)] 50 = 1 := by
    norm_num [plainUsage, sampleSum]
  refine ⟨hu, ?_⟩
  have hsnd : (getPlainMetricReplicaCountFull (1/10) [("pod-1", ⟨50, 0, 0⟩)] 7 50 1
      ["m-1"] []).2 = plainAugment [("pod-1", ⟨50, 0, 0⟩)] 50 ["m-1"] [] :=
    plain_full_snd_correction (1/10) [("pod-1", ⟨50, 0, 0⟩)] 7 50 1 ["m-1"] []
      (by rintro ⟨-, h⟩; simp at h)
  have haug : plainAugment [("pod-1", ⟨50, 0, 0⟩)] 50 ["m-1"] [] =
      [("m-1", ⟨0, 0, 0⟩), ("pod-1", ⟨50, 0, 0⟩)] := by
    unfold plainAugment
    rw [if_neg (by rintro ⟨h, -⟩; simp at h)]
    unfold plainAugmentMissing
    rw [if_pos (by norm_num), if_neg (by rw [hu]; norm_num)]
    rfl
  rw [hsnd, haug]
  rfl

/-- C3 amended: whenever the correction step of the plain-metric calculation
runs, each missing pod receives a synthetic sample of value T (the per-pod
target) if the base usage ratio is below one and of value 0 if it is at least
one (including exactly one); and when rebalanceIgnored holds, each ignored
pod receives a synthetic sample of value 0. -/
theorem plain_fill_directions (tolerance : ℚ) (metrics : PodSampleMap)
    (C T R : Int) (missingPods ignoredPods : List String)
    (hrun : ¬ (¬ (0 < ignoredPods.length ∧ 1 < plainUsage metrics T) ∧
      missingPods.length = 0)) :
    (∀ p ∈ missingPods,
      ((getPlainMetricReplicaCountFull tolerance metrics C T R missingPods
          ignoredPods).2).lookup p =
        some (if plainUsage metrics T < 1 then (⟨T, 0, 0⟩ : PodSample)
          else ⟨0, 0, 0⟩)) ∧
    ((0 < ignoredPods.length ∧ 1 < plainUsage metrics T) →
      ∀ p ∈ ignoredPods,
        ((getPlainMetricReplicaCountFull tolerance metrics C T R missingPods
            ignoredPods).2).lookup p = some ⟨0, 0, 0⟩) := by
  rw [plain_full_snd_correction tolerance metrics C T R missingPods ignoredPods hrun]
  constructor
  · intro p hp
    have hlen : 0 < missingPods.length :=
      List.length_pos.mpr (List.ne_nil_of_mem hp)
    unfold plainAugment
    by_cases hreb : 0 < ignoredPods.length ∧ 1 < plainUsage metrics T
    · have hnotlt : ¬ plainUsage metrics T < 1 := not_lt.mpr (le_of_lt hreb.2)
      rw [if_pos hreb, lookup_fillSamples, if_neg hnotlt]
      by_cases hpig : p ∈ ignoredPods
      · rw [if_pos hpig]
      · rw [if_neg hpig]
        unfold plainAugmentMissing
        rw [if_pos hlen, if_neg hnotlt, lookup_fillSamples, if_pos hp]
    · rw [if_neg hreb]
      unfold plainAugmentMissing
      rw [if_pos hlen]
      by_cases hu : plainUsage metrics T < 1
      · rw [if_pos hu, if_pos hu, lookup_fillSamples, if_pos hp]
      · rw [if_neg hu, if_neg hu, lookup_fillSamples, if_pos hp]
  · intro hreb p hp
    unfold plainAugment
    rw [if_pos hreb, lookup_fillSamples, if_pos hp]

/-- Witness for the amended C3: one pod sampling 20m against a 50m target
(base ratio 2/5, a scale-down) with one missing pod; the missing pod receives
a synthetic sample of the target value 50m. -/
theorem plain_fill_directions_witness :
    ((getPlainMetricReplicaCountFull (1/10) [("pod-1", ⟨20, 0, 0⟩)] 3 50 1
        ["m-1"] []).2).lookup "m-1" = some ⟨50, 0, 0⟩ := by
  have h := (plain_fill_directions (1/10) [("pod-1", ⟨20, 0, 0⟩)] 3 50 1 ["m-1"] []
    (by rintro ⟨-, h2⟩; simp at h2)).1 "m-1" (by simp)
  have hcond : plainUsage [("pod-1", ⟨20, 0, 0⟩)] 50 < 1 := by
    norm_num [plainUsage, sampleSum]
  rw [h, if_pos hcond]

/-- C7 (code bug): on a gathered Resource metric whose spec populates
Resource.Target.AverageValue = 50m next to Object.Target.AverageValue = 100m,
with one ready pod sampling 100m, the part_002 evaluator reads the Object
target (ratio 1, inside tolerance) and returns the current 1 replica, while
the newer evaluate/resource evaluator reads the Resource target (ratio 2) and
returns 2 replicas as the claim requires. -/
theorem resource_average_value_target_divergence :
    getResourceEvaluationOld (1/10) 1 divergenceMetric = .ok 1 ∧
    resourceGetEvaluation (1/10) 1 divergenceMetric = .ok 2 := by
  have hu100 : plainUsage [("pod-1", ⟨100, 0, 0⟩)] 100 = 1 := by
    norm_num [plainUsage, sampleSum]
  have hu50 : plainUsage [("pod-1", ⟨100, 0, 0⟩)] 50 = 2 := by
    norm_num [plainUsage, sampleSum]
  constructor
  · show Except.ok
      (getPlainMetricReplicaCount (1/10) [("pod-1", ⟨100, 0, 0⟩)] 1 100 1 [] []) =
        Except.ok 1
    unfold getPlainMetricReplicaCount
    rw [plain_base_eval (1/10) [("pod-1", ⟨100, 0, 0⟩)] 1 100 1 [] (Or.inl rfl)]
    rw [if_pos (by rw [hu100]; norm_num)]
  · show Except.ok
      (getPlainMetricReplicaCount (1/10) [("pod-1", ⟨100, 0, 0⟩)] 1 50 1 [] []) =
        Except.ok 2
    unfold getPlainMetricReplicaCount
    rw [plain_base_eval (1/10) [("pod-1", ⟨100, 0, 0⟩)] 1 50 1 [] (Or.inl rfl)]
    rw [if_neg (by rw [hu50]; norm_num [abs_le])]
    simp only [Except.ok.injEq]
    rw [hu50]
    push_cast
    norm_num [Int.ceil_eq_iff]

/-- The invalid-evaluation counter of the facade loop adds the number of
failing per-metric evaluations to its accumulator. -/
theorem evalLoop_count (e : EvaluateFacade) (ms : List Metric) :
    ∀ (best : Option Int) (firstErr : Option String) (count : Nat),
      (evalLoop e ms best firstErr count).2.2 =
        count + ms.countP (fun m => !(exceptIsOk (getEvaluationOne e m))) := by
  induction ms with
  | nil => intro best firstErr count; simp [evalLoop]
  | cons m ms ih =>
    intro best firstErr count
    rw [List.countP_cons]
    cases hm : getEvaluationOne e m with
    | error err =>
      simp only [evalLoop, hm]
      rw [ih]
      simp [exceptIsOk, hm]
      omega
    | ok v =>
      cases best with
      | none =>
        simp only [evalLoop, hm]
        rw [ih]
        simp [exceptIsOk, hm]
      | some cur =>
        simp only [evalLoop, hm]
        rw [ih]
        simp [exceptIsOk, hm]

/-- The best evaluation carried by the facade loop is the running maximum of
the accumulator and the successful per-metric values. -/
theorem evalLoop_best (e : EvaluateFacade) (ms : List Metric) :
    ∀ (best : Option Int) (firstErr : Option String) (count : Nat),
      (evalLoop e ms best firstErr count).1 = accMax best (successValues e ms) := by
  induction ms with
  | nil => intro best firstErr count; simp [evalLoop, successValues, accMax]
  | cons m ms ih =>
    intro best firstErr count
    cases hm : getEvaluationOne e m with
    | error err =>
      simp only [evalLoop, hm]
      rw [ih]
      simp [successValues, List.filterMap_cons, hm, Except.toOption]
    | ok v =>
      cases best with
      | none =>
        simp only [evalLoop, hm]
        rw [ih]
        simp [successValues, List.filterMap_cons, hm, Except.toOption, accMax]
      | some cur =>
        simp only [evalLoop, hm]
        rw [ih]
        simp [successValues, List.filterMap_cons, hm, Except.toOption, accMax]

/-- Once an error has been recorded (positive counter), the first-error slot of
the facade loop never changes. -/
theorem evalLoop_firstErr_pos (e : EvaluateFacade) (ms : List Metric) :
    ∀ (best : Option Int) (firstErr : Option String) (count : Nat), 1 ≤ count →
      (evalLoop e ms best firstErr count).2.1 = firstErr := by
  induction ms with
  | nil => intro best firstErr count _; simp [evalLoop]
  | cons m ms ih =>
    intro best firstErr count hc
    cases hm : getEvaluationOne e m with
    | error err =>
      simp only [evalLoop, hm]
      rw [if_neg (by omega)]
      exact ih best firstErr (count + 1) (by omega)
    | ok v =>
      cases best with
      | none => simp only [evalLoop, hm]; exact ih (some v) firstErr count hc
      | some cur => simp only [evalLoop, hm]; exact ih _ firstErr count hc

/-- Started from a zero counter, the facade loop records the first per-metric
error, and keeps its accumulator when there is none. -/
theorem evalLoop_firstErr_zero (e : EvaluateFacade) (ms : List Metric) :
    ∀ (best : Option Int) (firstErr : Option String),
      (evalLoop e ms best firstErr 0).2.1 =
        match firstError e ms with
        | some s => some s
        | none => firstErr := by
  induction ms with
  | nil => intro best firstErr; simp [evalLoop, firstError]
  | cons m ms ih =>
    intro best firstErr
    cases hm : getEvaluationOne e m with
    | error err =>
      simp only [evalLoop, hm, firstError]
      rw [if_pos (by omega)]
      exact evalLoop_firstErr_pos e ms best (some err) 1 (by omega)
    | ok v =>
      cases best with
      | none => simp only [evalLoop, hm, firstError]; exact ih (some v) firstErr
      | some cur => simp only [evalLoop, hm, firstError]; exact ih _ firstErr

/-- The running maximum started from a value is attained in the value or the
list, and bounds both. -/
theorem accMax_some_spec (xs : List Int) :
    ∀ cur : Int, ∃ v, accMax (some cur) xs = some v ∧ (v = cur ∨ v ∈ xs) ∧
      cur ≤ v ∧ ∀ w ∈ xs, w ≤ v := by
  induction xs with
  | nil => intro cur; exact ⟨cur, rfl, Or.inl rfl, le_refl cur, by simp⟩
  | cons x xs ih =>
    intro cur
    obtain ⟨v, hv, hmem, hle, hub⟩ := ih (if cur < x then x else cur)
    have hcurle : cur ≤ if cur < x then x else cur := by
      by_cases hc : cur < x
      · rw [if_pos hc]; exact le_of_lt hc
      · rw [if_neg hc]
    have hxle : x ≤ if cur < x then x else cur := by
      by_cases hc : cur < x
      · rw [if_pos hc]
      · rw [if_neg hc]; exact le_of_not_lt hc
    refine ⟨v, hv, ?_, le_trans hcurle hle, ?_⟩
    · rcases hmem with h | h
      · by_cases hc : cur < x
        · rw [if_pos hc] at h
          exact Or.inr (by rw [h]; exact List.mem_cons_self x xs)
        · rw [if_neg hc] at h
          exact Or.inl h
      · exact Or.inr (List.mem_cons_of_mem x h)
    · intro w hw
      rcases List.mem_cons.mp hw with h | h
      · rw [h]
        exact le_trans hxle hle
      · exact hub w h

/-- The number of successful evaluations plus the number of failing ones is
the number of metrics. -/
theorem successValues_length (e : EvaluateFacade) (ms : List Metric) :
    (successValues e ms).length +
      ms.countP (fun m => !(exceptIsOk (getEvaluationOne e m))) = ms.length := by
  induction ms with
  | nil => simp [successValues]
  | cons m ms ih =>
    rw [List.countP_cons]
    cases hm : getEvaluationOne e m with
    | error err =>
      simp only [successValues, List.filterMap_cons, hm, Except.toOption] at *
      simp [exceptIsOk, hm] at *
      omega
    | ok v =>
      simp only [successValues, List.filterMap_cons, hm, Except.toOption] at *
      simp [exceptIsOk, hm] at *
      omega

/-- C6: the evaluator facade returns an error exactly when every per-metric
evaluation fails, and the error message names the invalid count, the total
count, and the first per-metric error in input order. -/
theorem facade_evaluation_failure_policy (e : EvaluateFacade) (ms : List Metric) :
    ((∃ s, facadeGetEvaluation e ms = .error s) ↔
      ∀ m ∈ ms, exceptIsOk (getEvaluationOne e m) = false) ∧
    (∀ m0 rest err, ms = m0 :: rest →
      getEvaluationOne e m0 = .error err →
      (∀ m ∈ ms, exceptIsOk (getEvaluationOne e m) = false) →
      facadeGetEvaluation e ms =
        .error ("invalid evaluations (" ++ toString ms.length ++
          " invalid out of " ++ toString ms.length ++ "), first error is: " ++ err)) := by
  have hcount : (evalLoop e ms none none 0).2.2 =
      ms.countP (fun m => !(exceptIsOk (getEvaluationOne e m))) := by
    rw [evalLoop_count]
    omega
  have hall : (ms.length ≤ (evalLoop e ms none none 0).2.2) ↔
      ∀ m ∈ ms, exceptIsOk (getEvaluationOne e m) = false := by
    rw [hcount]
    constructor
    · intro h m hm
      have hle : ms.countP (fun m => !(exceptIsOk (getEvaluationOne e m))) ≤ ms.length :=
        List.countP_le_length _
      have heq : ms.countP (fun m => !(exceptIsOk (getEvaluationOne e m))) = ms.length :=
        le_antisymm hle h
      have := List.countP_eq_length.mp heq m hm
      simpa using this
    · intro h
      have : ms.countP (fun m => !(exceptIsOk (getEvaluationOne e m))) = ms.length :=
        List.countP_eq_length.mpr (fun m hm => by simp [h m hm])
      omega
  constructor
  · constructor
    · rintro ⟨s, hs⟩
      by_cases hc : ms.length ≤ (evalLoop e ms none none 0).2.2
      · exact hall.mp hc
      · unfold facadeGetEvaluation at hs
        rw [if_neg hc] at hs
        exact absurd hs (by simp)
    · intro h
      refine ⟨"invalid evaluations (" ++ toString (evalLoop e ms none none 0).2.2 ++
        " invalid out of " ++ toString ms.length ++ "), first error is: " ++
        ((evalLoop e ms none none 0).2.1.getD "<nil>"), ?_⟩
      unfold facadeGetEvaluation
      rw [if_pos (hall.mpr h)]
  · intro m0 rest err hms hm0 hfail
    unfold facadeGetEvaluation
    rw [if_pos (hall.mpr hfail)]
    have hfe : (evalLoop e ms none none 0).2.1 = some err := by
      rw [evalLoop_firstErr_zero]
      subst hms
      simp [firstError, hm0]
    have hcnt2 : (evalLoop e ms none none 0).2.2 = ms.length := by
      rw [hcount]
      exact List.countP_eq_length.mpr (fun m hm => by simp [hfail m hm])
    rw [hfe, hcnt2]
    rfl

/-- Witness for C6: a single metric of unknown source type makes the facade
fail with the aggregated message quoting the dispatch error. -/
theorem facade_evaluation_failure_policy_witness :
    facadeGetEvaluation sampleFacade [sampleUnknownMetric] =
      .error "invalid evaluations (1 invalid out of 1), first error is: unknown metric source type \"invalid\"" := by
  rw [(facade_evaluation_failure_policy sampleFacade [sampleUnknownMetric]).2
    sampleUnknownMetric [] "unknown metric source type \"invalid\"" rfl (by decide)
    (by decide)]
  decide

/-- C5: whenever the evaluator facade returns without error, the returned
evaluation is the maximum of the successful per-metric evaluations; failing
per-metric evaluations are skipped, not propagated (a single success suffices
for the facade to succeed). -/
theorem facade_evaluation_max_aggregation (e : EvaluateFacade) (ms : List Metric) :
    (∀ o, facadeGetEvaluation e ms = .ok o →
      ∃ v, o = some v ∧ v ∈ successValues e ms ∧
        ∀ w ∈ successValues e ms, w ≤ v) ∧
    ((∃ m ∈ ms, exceptIsOk (getEvaluationOne e m) = true) →
      ∃ o, facadeGetEvaluation e ms = .ok o) := by
  have hcount : (evalLoop e ms none none 0).2.2 =
      ms.countP (fun m => !(exceptIsOk (getEvaluationOne e m))) := by
    rw [evalLoop_count]
    omega
  constructor
  · intro o ho
    by_cases hc : ms.length ≤ (evalLoop e ms none none 0).2.2
    · unfold facadeGetEvaluation at ho
      rw [if_pos hc] at ho
      exact absurd ho (by simp)
    · unfold facadeGetEvaluation at ho
      rw [if_neg hc] at ho
      have ho2 : (evalLoop e ms none none 0).1 = o := Except.ok.inj ho
      have hbest : (evalLoop e ms none none 0).1 = accMax none (successValues e ms) :=
        evalLoop_best e ms none none 0
      have hlen : 0 < (successValues e ms).length := by
        have := successValues_length e ms
        rw [hcount] at hc
        omega
      obtain ⟨x, xs, hxs⟩ :=
        List.exists_cons_of_ne_nil (List.length_pos.mp hlen)
      obtain ⟨v, hv, hmem, hle, hub⟩ := accMax_some_spec xs x
      refine ⟨v, ?_, ?_, ?_⟩
      · rw [← ho2, hbest, hxs]
        exact hv
      · rw [hxs]
        rcases hmem with h | h
        · rw [h]
          exact List.mem_cons_self x xs
        · exact List.mem_cons_of_mem x h
      · intro w hw
        rw [hxs] at hw
        rcases List.mem_cons.mp hw with h | h
        · rw [h]
          exact hle
        · exact hub w h
  · rintro ⟨m, hm, hok⟩
    have hle : ms.countP (fun m => !(exceptIsOk (getEvaluationOne e m))) ≤ ms.length :=
      List.countP_le_length _
    have hlt : ms.countP (fun m => !(exceptIsOk (getEvaluationOne e m))) < ms.length := by
      rcases lt_or_eq_of_le hle with h | h
      · exact h
      · exfalso
        have := List.countP_eq_length.mp h m hm
        simp [hok] at this
    refine ⟨(evalLoop e ms none none 0).1, ?_⟩
    unfold facadeGetEvaluation
    rw [if_neg (by rw [hcount]; omega)]

/-- Witness for C5: pods metrics recommending 3 and 9 replicas beside a
failing resource metric; the facade succeeds with the maximum, 9. -/
theorem facade_evaluation_max_aggregation_witness :
    (∃ v, (some 9 : Option Int) = some v ∧
      v ∈ successValues sampleFacade
        [samplePodsMetric3, sampleResourceMetric, samplePodsMetric9] ∧
      ∀ w ∈ successValues sampleFacade
        [samplePodsMetric3, sampleResourceMetric, samplePodsMetric9], w ≤ v) ∧
    (∃ o, facadeGetEvaluation sampleFacade
      [samplePodsMetric3, sampleResourceMetric, samplePodsMetric9] = .ok o) :=
  ⟨(facade_evaluation_max_aggregation sampleFacade
      [samplePodsMetric3, sampleResourceMetric, samplePodsMetric9]).1 (some 9)
      (by decide),
   (facade_evaluation_max_aggregation sampleFacade
      [samplePodsMetric3, sampleResourceMetric, samplePodsMetric9]).2
      ⟨samplePodsMetric3, by decide, by decide⟩⟩

/-- C10: called on an empty list, both facades return the all-invalid error
(the check `count >= length` is satisfied by `0 >= 0`) and never an empty
success result. -/
theorem facades_error_on_empty_input (e : EvaluateFacade)
    (getMetricOne : Int → MetricSpec → Except String Metric) (r : Option Int) :
    facadeGetEvaluation e [] =
      .error "invalid evaluations (0 invalid out of 0), first error is: <nil>" ∧
    facadeGetMetrics getMetricOne (.ok r) [] =
      .error "invalid metrics (0 invalid out of 0), first error is: <nil>" := by
  constructor
  · unfold facadeGetEvaluation evalLoop
    rfl
  · unfold facadeGetMetrics gatherLoop
    rfl

/-- Inserting a fresh name into a string set appends it. -/
theorem setInsert_not_mem (s : List String) (x : String) (h : x ∉ s) :
    setInsert s x = s ++ [x] := by
  simp [setInsert, h]

/-- Characterization of the `groupPods` loop: starting from any accumulator
whose ignored and missing sets are disjoint from the (duplicate-free) names of
the remaining pods, the loop adds the counted-ready count and appends the
names of the ignored and missing pods in order. -/
theorem groupPods_foldl_spec (now cpuInit delay : Int) (metrics : PodSampleMap)
    (resourceName : String) :
    ∀ (pods : List Pod) (r : Nat) (ig mi : List String),
      (pods.map Pod.name).Nodup →
      (∀ p ∈ pods, p.name ∉ ig ∧ p.name ∉ mi) →
      pods.foldl (groupPodsStep now metrics resourceName cpuInit delay) (r, ig, mi) =
        (r + pods.countP (podCountedReady now metrics resourceName cpuInit delay),
          ig ++ (pods.filter (podIgnored now metrics resourceName cpuInit delay)).map
            Pod.name,
          mi ++ (pods.filter (podMissing metrics)).map Pod.name) := by
  intro pods
  induction pods with
  | nil => intro r ig mi _ _; simp
  | cons p ps ih =>
    intro r ig mi hnodup hfresh
    have hnodup2 : (ps.map Pod.name).Nodup := by
      rw [List.map_cons, List.nodup_cons] at hnodup
      exact hnodup.2
    have hpnotin : p.name ∉ ps.map Pod.name := by
      rw [List.map_cons, List.nodup_cons] at hnodup
      exact hnodup.1
    have hfreshp := hfresh p (List.mem_cons_self p ps)
    have hfresh2 : ∀ q ∈ ps, q.name ∉ ig ∧ q.name ∉ mi := by
      intro q hq
      exact hfresh q (List.mem_cons_of_mem p hq)
    have hname2 : ∀ q ∈ ps, q.name ≠ p.name := by
      intro q hq h
      exact hpnotin (h ▸ List.mem_map_of_mem Pod.name hq)
    rw [List.foldl_cons, List.countP_cons, List.filter_cons, List.filter_cons]
    cases hskip : podSkipped p with
    | true =>
      have hstep : groupPodsStep now metrics resourceName cpuInit delay (r, ig, mi) p
          = (r, ig, mi) := by
        simp [groupPodsStep, hskip]
      have hcr : podCountedReady now metrics resourceName cpuInit delay p = false := by
        simp [podCountedReady, hskip]
      have hig : podIgnored now metrics resourceName cpuInit delay p = false := by
        simp [podIgnored, hskip]
      have hmi : podMissing metrics p = false := by
        simp [podMissing, hskip]
      rw [hstep, ih r ig mi hnodup2 hfresh2, hcr, hig, hmi]
      simp
    | false =>
      cases hlook : metrics.lookup p.name with
      | none =>
        have hstep : groupPodsStep now metrics resourceName cpuInit delay (r, ig, mi) p
            = (r, ig, setInsert mi p.name) := by
          simp [groupPodsStep, hskip, hlook]
        have hcr : podCountedReady now metrics resourceName cpuInit delay p = false := by
          simp [podCountedReady, hskip, hlook]
        have hig : podIgnored now metrics resourceName cpuInit delay p = false := by
          simp [podIgnored, hskip, hlook]
        have hmi : podMissing metrics p = true := by
          simp [podMissing, hskip, hlook]
        rw [hstep, setInsert_not_mem mi p.name hfreshp.2,
          ih r ig (mi ++ [p.name]) hnodup2 ?_, hcr, hig, hmi]
        · simp
        · intro q hq
          refine ⟨(hfresh2 q hq).1, ?_⟩
          rw [List.mem_append]
          rintro (h | h)
          · exact (hfresh2 q hq).2 h
          · exact hname2 q hq (by simpa using h)
      | some sample =>
        cases hcpu : (resourceName == "cpu") with
        | false =>
          have hstep : groupPodsStep now metrics resourceName cpuInit delay (r, ig, mi) p
              = (r + 1, ig, mi) := by
            simp [groupPodsStep, hskip, hlook, hcpu]
          have hcr : podCountedReady now metrics resourceName cpuInit delay p = true := by
            simp [podCountedReady, hskip, hlook, hcpu]
          have hig : podIgnored now metrics resourceName cpuInit delay p = false := by
            simp [podIgnored, hskip, hlook, hcpu]
          have hmi : podMissing metrics p = false := by
            simp [podMissing, hskip, hlook]
          rw [hstep, ih (r + 1) ig mi hnodup2 hfresh2, hcr, hig, hmi]
          simp only [if_true, if_false, Bool.false_eq_true]
          refine Prod.ext ?_ rfl
          simp
          omega
        | true =>
          cases hign : ignorePodCPU now cpuInit delay p sample with
          | true =>
            have hstep : groupPodsStep now metrics resourceName cpuInit delay
                (r, ig, mi) p = (r, setInsert ig p.name, mi) := by
              simp [groupPodsStep, hskip, hlook, hcpu, hign]
            have hcr : podCountedReady now metrics resourceName cpuInit delay p
                = false := by
              simp [podCountedReady, hskip, hlook, hcpu, hign]
            have hig : podIgnored now metrics resourceName cpuInit delay p = true := by
              simp [podIgnored, hskip, hlook, hcpu, hign]
            have hmi : podMissing metrics p = false := by
              simp [podMissing, hskip, hlook]
            rw [hstep, setInsert_not_mem ig p.name hfreshp.1,
              ih r (ig ++ [p.name]) mi hnodup2 ?_, hcr, hig, hmi]
            · simp
            · intro q hq
              refine ⟨?_, (hfresh2 q hq).2⟩
              rw [List.mem_append]
              rintro (h | h)
              · exact (hfresh2 q hq).1 h
              · exact hname2 q hq (by simpa using h)
          | false =>
            have hstep : groupPodsStep now metrics resourceName cpuInit delay
                (r, ig, mi) p = (r + 1, ig, mi) := by
              simp [groupPodsStep, hskip, hlook, hcpu, hign]
            have hcr : podCountedReady now metrics resourceName cpuInit delay p
                = true := by
              simp [podCountedReady, hskip, hlook, hcpu, hign]
            have hig : podIgnored now metrics resourceName cpuInit delay p = false := by
              simp [podIgnored, hskip, hlook, hcpu, hign]
            have hmi : podMissing metrics p = false := by
              simp [podMissing, hskip, hlook]
            rw [hstep, ih (r + 1) ig mi hnodup2 hfresh2, hcr, hig, hmi]
            simp only [if_true, if_false, Bool.false_eq_true]
            refine Prod.ext ?_ rfl
            simp
            omega

/-- Three pointwise-exclusive-and-exhaustive counts split a fourth count. -/
theorem countP_three_split {α : Type} (a b c d : α → Bool)
    (h : ∀ x, (a x).toNat + (b x).toNat + (c x).toNat = (d x).toNat) :
    ∀ l : List α, l.countP a + l.countP b + l.countP c = l.countP d := by
  intro l
  induction l with
  | nil => rfl
  | cons x xs ih =>
    simp only [List.countP_cons]
    have hx := h x
    cases ha : a x <;> cases hb : b x <;> cases hc : c x <;> cases hd : d x <;>
      rw [ha, hb, hc, hd] at hx <;> simp at hx ⊢ <;> omega

/-- Each non-skipped pod falls in exactly one of the three classifier buckets,
and a skipped pod in none. -/
theorem pod_partition_pointwise (now cpuInit delay : Int) (metrics : PodSampleMap)
    (resourceName : String) (p : Pod) :
    (podCountedReady now metrics resourceName cpuInit delay p).toNat +
      (podIgnored now metrics resourceName cpuInit delay p).toNat +
      (podMissing metrics p).toNat = (!podSkipped p).toNat := by
  cases hskip : podSkipped p with
  | true => simp [podCountedReady, podIgnored, podMissing, hskip]
  | false =>
    cases hlook : metrics.lookup p.name with
    | none => simp [podCountedReady, podIgnored, podMissing, hskip, hlook]
    | some sample =>
      cases hcpu : (resourceName == "cpu") with
      | false => simp [podCountedReady, podIgnored, podMissing, hskip, hlook, hcpu]
      | true =>
        cases hign : ignorePodCPU now cpuInit delay p sample with
        | false =>
          simp [podCountedReady, podIgnored, podMissing, hskip, hlook, hcpu, hign]
        | true =>
          simp [podCountedReady, podIgnored, podMissing, hskip, hlook, hcpu, hign]

/-- The skip test of `groupPods`, written as the claim states it. -/
theorem not_podSkipped_eq (p : Pod) :
    (!podSkipped p) =
      (p.deletionTimestamp.isNone && !(p.phase == PodPhase.failed)) := by
  cases hd : p.deletionTimestamp <;> simp [podSkipped, hd]

/-- C4: for every duplicate-free pod list, the classifier partition satisfies
ready + ignored + missing = number of pods neither marked for deletion nor in
phase Failed; the missing set holds exactly the names of non-skipped pods
without a sample; and every ignored name has a sample in the map. -/
theorem groupPods_partition_invariant (now cpuInit delay : Int) (pods : List Pod)
    (metrics : PodSampleMap) (resourceName : String)
    (hnodup : (pods.map Pod.name).Nodup) :
    ((groupPods now pods metrics resourceName cpuInit delay).1 +
        ((groupPods now pods metrics resourceName cpuInit delay).2.1).length +
        ((groupPods now pods metrics resourceName cpuInit delay).2.2).length =
      (pods.filter (fun p => p.deletionTimestamp.isNone &&
        !(p.phase == PodPhase.failed))).length) ∧
    (∀ x, x ∈ (groupPods now pods metrics resourceName cpuInit delay).2.2 ↔
      ∃ p ∈ pods, p.name = x ∧ podSkipped p = false ∧
        metrics.lookup p.name = none) ∧
    (∀ x ∈ (groupPods now pods metrics resourceName cpuInit delay).2.1,
      ((metrics.lookup x).isSome : Bool) = true) := by
  have hmain := groupPods_foldl_spec now cpuInit delay metrics resourceName pods 0 [] []
    hnodup (fun p _ => ⟨List.not_mem_nil _, List.not_mem_nil _⟩)
  unfold groupPods
  rw [hmain]
  refine ⟨?_, ?_, ?_⟩
  · simp only [List.nil_append, Nat.zero_add, List.length_map]
    rw [← List.countP_eq_length_filter, ← List.countP_eq_length_filter,
      ← List.countP_eq_length_filter]
    have hsplit := countP_three_split
      (podCountedReady now metrics resourceName cpuInit delay)
      (podIgnored now metrics resourceName cpuInit delay)
      (podMissing metrics) (fun p => !podSkipped p)
      (pod_partition_pointwise now cpuInit delay metrics resourceName) pods
    rw [hsplit]
    exact List.countP_congr (fun p _ => by rw [not_podSkipped_eq p])
  · intro x
    simp only [List.nil_append, List.mem_map, List.mem_filter]
    constructor
    · rintro ⟨p, ⟨hp, hmiss⟩, rfl⟩
      simp only [podMissing, Bool.and_eq_true, Bool.not_eq_true',
        Option.isNone_iff_eq_none] at hmiss
      exact ⟨p, hp, rfl, hmiss.1, hmiss.2⟩
    · rintro ⟨p, hp, rfl, hskip, hlook⟩
      exact ⟨p, ⟨hp, by simp [podMissing, hskip, hlook]⟩, rfl⟩
  · intro x hx
    simp only [List.nil_append, List.mem_map, List.mem_filter] at hx
    obtain ⟨p, ⟨_, hig⟩, rfl⟩ := hx
    revert hig
    unfold podIgnored
    cases hlook : metrics.lookup p.name
    · simp
    · simp [hlook]

/-- Witness for C4: four pods (ready, missing, ignored, failed) under the CPU
gate; the partition counts 1 ready + 1 ignored + 1 missing = 3 non-skipped
pods. -/
theorem groupPods_partition_invariant_witness :
    (groupPods 1000 [samplePodA, samplePodB, samplePodC, samplePodD]
        sampleClassifierMap "cpu" 300 30).1 +
      ((groupPods 1000 [samplePodA, samplePodB, samplePodC, samplePodD]
        sampleClassifierMap "cpu" 300 30).2.1).length +
      ((groupPods 1000 [samplePodA, samplePodB, samplePodC, samplePodD]
        sampleClassifierMap "cpu" 300 30).2.2).length =
      ([samplePodA, samplePodB, samplePodC, samplePodD].filter
        (fun p => p.deletionTimestamp.isNone &&
          !(p.phase == PodPhase.failed))).length :=
  (groupPods_partition_invariant 1000 300 30
    [samplePodA, samplePodB, samplePodC, samplePodD] sampleClassifierMap "cpu"
    (by decide)).1

/-- The CPU timing gate, spelled out: a sampled pod is ignored exactly when it
has no Ready condition or no start time; or it is within the CPU
initialization window and is unready or its sample is older than one window
past the last ready transition; or the window has passed, it is unready, and
it has never been ready (start time plus the initial readiness delay is after
the last transition). -/
theorem ignorePodCPU_iff (now cpuInit delay : Int) (pod : Pod) (sample : PodSample) :
    ignorePodCPU now cpuInit delay pod sample = true ↔
      (getPodCondition pod.conditions "Ready" = none ∨ pod.startTime = none ∨
        ∃ c st, getPodCondition pod.conditions "Ready" = some c ∧
          pod.startTime = some st ∧
          ((now < st + cpuInit ∧ (c.status = ConditionStatus.conditionFalse ∨
              sample.timestamp < c.lastTransitionTime + sample.window)) ∨
            (¬ now < st + cpuInit ∧ c.status = ConditionStatus.conditionFalse ∧
              c.lastTransitionTime < st + delay))) := by
  cases hc : getPodCondition pod.conditions "Ready" with
  | none => simp [ignorePodCPU, hc]
  | some c =>
    cases hst : pod.startTime with
    | none => simp [ignorePodCPU, hc, hst]
    | some st =>
      simp only [ignorePodCPU, hc, hst]
      constructor
      · intro h
        refine Or.inr (Or.inr ⟨c, st, rfl, rfl, ?_⟩)
        by_cases hin : now < st + cpuInit
        · rw [if_pos hin] at h
          refine Or.inl ⟨hin, ?_⟩
          rw [Bool.or_eq_true] at h
          rcases h with h1 | h1
          · exact Or.inl (by simpa using h1)
          · exact Or.inr (by simpa using h1)
        · rw [if_neg hin] at h
          rw [Bool.and_eq_true] at h
          rcases h with ⟨h1, h2⟩
          exact Or.inr ⟨hin, by simpa using h1, by simpa using h2⟩
      · rintro (h | h | ⟨c2, st2, hc2, hst2, hcond⟩)
        · exact absurd h (by simp)
        · exact absurd h (by simp)
        · obtain rfl : c2 = c := by
            have := Option.some.inj hc2
            rw [this]
          obtain rfl : st2 = st := by
            have := Option.some.inj hst2
            rw [this]
          rcases hcond with ⟨hin, hor⟩ | ⟨hin, hs, ht⟩
          · rw [if_pos hin, Bool.or_eq_true]
            rcases hor with h1 | h1
            · exact Or.inl (by simpa using h1)
            · exact Or.inr (by simpa using h1)
          · rw [if_neg hin, Bool.and_eq_true]
            exact ⟨by simpa using hs, by simpa using ht⟩

/-- On a sampled, non-skipped pod, the ignored predicate is the CPU check with
the timing gate. -/
theorem podIgnored_eq (now cpuInit delay : Int) (metrics : PodSampleMap)
    (resourceName : String) (pod : Pod) (sample : PodSample)
    (hlook : metrics.lookup pod.name = some sample)
    (hskip : podSkipped pod = false) :
    podIgnored now metrics resourceName cpuInit delay pod =
      (resourceName == "cpu" && ignorePodCPU now cpuInit delay pod sample) := by
  simp [podIgnored, hskip, hlook]

/-- C8: a sampled, non-skipped pod is ignored by `groupPods` exactly when the
resource is CPU and the timing condition of the claim holds; for a non-CPU
resource the ignored set is empty. -/
theorem groupPods_cpu_timing_gate (now cpuInit delay : Int) (pods : List Pod)
    (metrics : PodSampleMap) (resourceName : String) (pod : Pod)
    (sample : PodSample) (hnodup : (pods.map Pod.name).Nodup) (hmem : pod ∈ pods)
    (hlook : metrics.lookup pod.name = some sample)
    (hskip : podSkipped pod = false) :
    (pod.name ∈ (groupPods now pods metrics resourceName cpuInit delay).2.1 ↔
      (resourceName = "cpu" ∧
        (getPodCondition pod.conditions "Ready" = none ∨ pod.startTime = none ∨
          ∃ c st, getPodCondition pod.conditions "Ready" = some c ∧
            pod.startTime = some st ∧
            ((now < st + cpuInit ∧ (c.status = ConditionStatus.conditionFalse ∨
                sample.timestamp < c.lastTransitionTime + sample.window)) ∨
              (¬ now < st + cpuInit ∧ c.status = ConditionStatus.conditionFalse ∧
                c.lastTransitionTime < st + delay))))) ∧
    (resourceName ≠ "cpu" →
      (groupPods now pods metrics resourceName cpuInit delay).2.1 = []) := by
  have hmain := groupPods_foldl_spec now cpuInit delay metrics resourceName pods 0 [] []
    hnodup (fun p _ => ⟨List.not_mem_nil _, List.not_mem_nil _⟩)
  constructor
  · unfold groupPods
    rw [hmain]
    simp only [List.nil_append]
    constructor
    · intro hx
      simp only [List.mem_map, List.mem_filter] at hx
      obtain ⟨q, ⟨hq, hqig⟩, hname⟩ := hx
      have hq_eq : q = pod := List.inj_on_of_nodup_map hnodup hq hmem hname
      rw [hq_eq] at hqig
      rw [podIgnored_eq now cpuInit delay metrics resourceName pod sample hlook
        hskip] at hqig
      rw [Bool.and_eq_true] at hqig
      rcases hqig with ⟨h1, h2⟩
      exact ⟨by simpa using h1, (ignorePodCPU_iff now cpuInit delay pod sample).mp h2⟩
    · rintro ⟨hres, hcond⟩
      apply List.mem_map_of_mem
      apply List.mem_filter.mpr
      refine ⟨hmem, ?_⟩
      rw [podIgnored_eq now cpuInit delay metrics resourceName pod sample hlook hskip,
        Bool.and_eq_true]
      exact ⟨by simp [hres],
        (ignorePodCPU_iff now cpuInit delay pod sample).mpr hcond⟩
  · intro hres
    unfold groupPods
    rw [hmain]
    simp only [List.nil_append]
    have hnil : pods.filter (podIgnored now metrics resourceName cpuInit delay) = [] := by
      rw [List.filter_eq_nil_iff]
      intro q _
      unfold podIgnored
      cases hlq : metrics.lookup q.name <;> simp [hres, hlq]
    rw [hnil]
    rfl

/-- Witness for C8: the pod without a Ready condition is ignored under the CPU
gate. -/
theorem groupPods_cpu_timing_gate_witness :
    samplePodC.name ∈ (groupPods 1000 [samplePodA, samplePodB, samplePodC, samplePodD]
      sampleClassifierMap "cpu" 300 30).2.1 :=
  (groupPods_cpu_timing_gate 1000 300 30
    [samplePodA, samplePodB, samplePodC, samplePodD] sampleClassifierMap "cpu"
    samplePodC ⟨100, 50, 10⟩ (by decide) (by decide) (by decide) (by decide)).1.mpr
    ⟨rfl, Or.inl rfl⟩
